import Mathlib

/-!
Shallow embedding of the mitch test server's dispatch and asset-delivery
subsystem (`serve` in the Go source, plus `formatters.go`), together with
theorems checking the specification's claims against it.

Machine integers (Go `int64`) are modelled as `Int`; byte buffers as
`List Nat`; Go strings as Lean `String`.  Go panics (runtime errors and
`Throw`-style aborts) are modelled explicitly by the `HandlerStep` type,
which the dispatch wrapper (`serveWrap`, from the recover block of
`serve`) converts to a final reply.
-/

namespace Mitch

/-- Go `strings.Split(s, sep)` for a single-character separator:
splits around every occurrence of the separator; always returns at
least one (possibly empty) piece.  Operates on the character list. -/
def splitOnChar (c : Char) : List Char → List (List Char)
  | [] => [[]]
  | x :: xs =>
    match splitOnChar c xs, x == c with
    | r, true => [] :: r
    | [], false => [[x]]
    | y :: ys, false => (x :: y) :: ys

/-- Go `strings.Split` on a `String`, single-character separator. -/
def goSplit (s : String) (c : Char) : List String :=
  (splitOnChar c s.toList).map String.mk

/-- Decimal-digit accumulator used by `parseInt64`: consumes the whole
list; fails on any non-digit character. -/
def decDigitsAux : List Char → Nat → Option Nat
  | [], acc => some acc
  | c :: cs, acc =>
    if c.isDigit then decDigitsAux cs (acc * 10 + (c.toNat - 48)) else none

/-- Embedding of Go `strconv.ParseInt(s, 10, 64)`: optional sign, at
least one decimal digit, no other characters, result within the
signed 64-bit range (Go returns an error on overflow, which the
caller treats the same as any parse failure). -/
def parseInt64 (s : String) : Option Int :=
  match s.toList with
  | [] => none
  | '+' :: cs =>
    match cs with
    | [] => none
    | _ =>
      (decDigitsAux cs 0).bind fun n =>
        if n ≤ 9223372036854775807 then some (n : Int) else none
  | '-' :: cs =>
    match cs with
    | [] => none
    | _ =>
      (decDigitsAux cs 0).bind fun n =>
        if n ≤ 9223372036854775808 then some (-(n : Int)) else none
  | cs =>
    (decDigitsAux cs 0).bind fun n =>
      if n ≤ 9223372036854775807 then some (n : Int) else none

/-- Go slice/array indexing `xs[i]`: a runtime panic when out of range. -/
def goIndex {α : Type} (xs : List α) (i : Nat) : Except String α :=
  match xs[i]? with
  | some a => .ok a
  | none => .error "runtime error: index out of range"

/-- Go slice expression `xs[lo:hi]`: the half-open subrange when
`0 ≤ lo ≤ hi ≤ len(xs)`, a runtime panic otherwise. -/
def goSlice (xs : List Nat) (lo hi : Int) : Except String (List Nat) :=
  if 0 ≤ lo ∧ lo ≤ hi ∧ hi ≤ (xs.length : Int) then
    .ok ((xs.drop lo.toNat).take (hi - lo).toNat)
  else
    .error "runtime error: slice bounds out of range"

/-- Go `strings.TrimPrefix(path, "/@cdn")` as used by the `/@cdn`
prefix route: drops the five-character mount prefix when present. -/
def goTrimCDN (s : String) : String :=
  match s.toList with
  | '/' :: '@' :: 'c' :: 'd' :: 'n' :: rest => String.mk rest
  | _ => s

/-- Go `fmt.Sprintf("%q", s)` restricted to the printable characters a
filename carries: wraps in double quotes, escaping embedded quotes and
backslashes (control-character escapes of `%q` are not modelled). -/
def goQuote (s : String) : String :=
  "\"" ++ String.mk (s.toList.flatMap fun c =>
    if c = '"' then ['\\', '"'] else if c = '\\' then ['\\', '\\'] else [c]) ++ "\""

/-- Substring test used to state facts about error-message bodies:
true when `needle` occurs contiguously in `hay`. -/
def strContainsSub (hay needle : String) : Bool :=
  (List.range (hay.toList.length + 1)).any fun i =>
    ((hay.toList.drop i).take needle.toList.length) == needle.toList

/-! ## Data model (entity fields as used by `formatters.go` and `serve`) -/

structure User where
  ID : Int
  Gamer : Bool
  Developer : Bool
  PressUser : Bool
  DisplayName : String
  Username : String
  AllowTelemetry : Bool

structure Game where
  ID : Int
  UserID : Int
  Title : String
  MinPrice : Int
  Typ : String
  Classification : String

structure Upload where
  ID : Int
  GameID : Int
  Typ : String
  Storage : String
  Size : Int
  Filename : String
  URL : String
  PlatformLinux : Bool
  PlatformWindows : Bool
  PlatformMac : Bool
  Head : Int

/-- A CDN-delivered binary asset: filename, declared byte size, and the
raw content bytes. -/
structure CDNFile where
  Filename : String
  Size : Int
  Contents : List Nat

/-- A named file of a Build, keyed by its (type, subtype) pair and
pointing to a CDN asset. -/
structure BuildFile where
  Typ : String
  Subtype : String
  File : CDNFile

structure Build where
  ID : Int
  UploadID : Int
  Files : List BuildFile

/-- Modelled from the spec: the in-memory Store is a repository of
entities keyed by identifier (CDN files keyed by path); its population
is external and it is read-only during request handling. -/
structure Store where
  Games : List (Int × Game)
  Uploads : List (Int × Upload)
  Builds : List (Int × Build)
  CDNFiles : List (String × CDNFile)

/-- Modelled from the spec: `Store.FindGame` is a pure lookup returning
the matching Game or a not-found signal (a nil pointer in Go). -/
def Store.FindGame (st : Store) (id : Int) : Option Game :=
  st.Games.lookup id

/-- Modelled from the spec: pure Upload lookup, nil when absent. -/
def Store.FindUpload (st : Store) (id : Int) : Option Upload :=
  st.Uploads.lookup id

/-- Modelled from the spec: pure Build lookup, nil when absent. -/
def Store.FindBuild (st : Store) (id : Int) : Option Build :=
  st.Builds.lookup id

/-- Modelled from the spec: the ordered collection of Uploads belonging
to a Game. -/
def Store.ListUploadsByGame (st : Store) (gameID : Int) : List Upload :=
  (st.Uploads.filter fun kv => kv.2.GameID == gameID).map fun kv => kv.2

/-- Modelled from the spec: Build file lookup by (type, subtype) pair,
nil when the pair is not present on the Build. -/
def Build.GetFile (b : Build) (typ subtype : String) : Option BuildFile :=
  b.Files.find? fun f => f.Typ == typ && f.Subtype == subtype

/-- Modelled from the spec: the capability predicate deciding whether a
user may view a game.  The specified data model carries no privacy
field, so every (game, user) pair is viewable; the predicate is a pure
function of the entity and the actor. -/
def Game.CanBeViewedBy (_g : Game) (_u : User) : Bool := true

/-- Modelled from the spec: the capability predicate deciding whether a
user may download an upload; a pure function of (entity, actor). -/
def Upload.CanBeDownloadedBy (_u : Upload) (_user : User) : Bool := true

/-! ## JSON values and the formatters (`formatters.go`) -/

/-- A JSON-serializable value; objects keep insertion order, matching
the order in which the Go code populates its `Any` maps. -/
inductive Value where
  | vNull
  | vBool (b : Bool)
  | vInt (n : Int)
  | vStr (s : String)
  | vArr (elems : List Value)
  | vObj (fields : List (String × Value))

/-- The Go `Any` type (`map[string]interface\x7b\x7d`), as an ordered
association list. -/
abbrev Any := List (String × Value)

/-- The `platforms` local of `FormatUpload`: conditional inserts of
the keys `linux`, `windows`, `osx`, each mapped to `"all"`. -/
def uploadPlatforms (u : Upload) : Any :=
  (if u.PlatformLinux then [("linux", Value.vStr "all")] else []) ++
  (if u.PlatformWindows then [("windows", Value.vStr "all")] else []) ++
  (if u.PlatformMac then [("osx", Value.vStr "all")] else [])

/-- `FormatUpload` from `formatters.go`. -/
def FormatUpload (u : Upload) : Any :=
  [("id", Value.vInt u.ID),
   ("game_id", Value.vInt u.GameID),
   ("type", Value.vStr u.Typ),
   ("storage", Value.vStr u.Storage),
   ("size", Value.vInt u.Size),
   ("filename", Value.vStr u.Filename),
   ("url", Value.vStr u.URL),
   ("platforms", Value.vObj (uploadPlatforms u))]

/-- Go `append` on a possibly-nil slice: appending to the nil slice
allocates a fresh one-element slice. -/
def goAppendAny (res : Option (List Any)) (x : Any) : Option (List Any) :=
  match res with
  | none => some [x]
  | some xs => some (xs ++ [x])

/-- `FormatUploads` from `formatters.go`: starts from the nil slice
(`var res []Any`) and appends one formatted upload per element. -/
def FormatUploads (uploads : List Upload) : Option (List Any) :=
  uploads.foldl (fun res u => goAppendAny res (FormatUpload u)) none

/-- Modelled from the spec: the external JSON library (`encoding/json`)
serializes a nil slice as `null` and a non-nil slice as an array. -/
def marshalUploadsSlice : Option (List Any) → Value
  | none => Value.vNull
  | some xs => Value.vArr (xs.map Value.vObj)

/-! ## Abort signal, handler steps, and the dispatch wrapper -/

/-- The possible terminations of a handler body.  `done` is normal
completion carrying the written output; the three `panic...`
constructors are the panic values the recover block of `serve`
distinguishes: an error whose cause is a structured `APIError`
(raised by `Throw(status, messages...)`), any other error (runtime
faults included), and a non-error panic value.  The abort mechanism
itself (`Throw` / `APIError`) is modelled from the spec: it
short-circuits the handler carrying an HTTP status and messages. -/
inductive HandlerStep (α : Type) where
  | done (a : α)
  | panicAPI (status : Nat) (messages : List String)
  | panicErr (detail : String)
  | panicVal (detail : String)

/-- Sequencing of handler steps: any panic short-circuits. -/
def HandlerStep.bind {α β : Type} : HandlerStep α → (α → HandlerStep β) → HandlerStep β
  | .done a, f => f a
  | .panicAPI s m, _ => .panicAPI s m
  | .panicErr d, _ => .panicErr d
  | .panicVal d, _ => .panicVal d

/-- An HTTP response as assembled by the `/@cdn` handler: status,
headers in the order they are set, body bytes. -/
structure HTTPResponse where
  status : Nat
  headers : List (String × String)
  body : List Nat

/-- What `ServeCDNAsset` is asked to deliver on the two download
routes (its streaming internals are not under src/). -/
inductive ServedAsset where
  | uploadAsset (u : Upload)
  | buildFileAsset (bf : BuildFile)

/-- A handler's written output: a JSON document (`WriteJSON`, status
200), an inline streamed response (the `/@cdn` handler), or a
delegated asset delivery (`ServeCDNAsset`). -/
inductive HandlerOut where
  | json (v : Value)
  | stream (r : HTTPResponse)
  | serveAsset (a : ServedAsset)

/-- The reply the client finally observes: either the handler's own
output, or a JSON error body `\x7berrors: [...]\x7d` with a status
(`WriteError`). -/
inductive ServerReply where
  | ok (o : HandlerOut)
  | err (status : Nat) (messages : List String)

/-- The uniform handler wrapper of `serve` (its recover block plus the
trailing `WriteError` call): a structured `APIError` panic keeps its
status and messages; any other error panic is written as status 500
with message `internal error: <detail>`; a non-error panic value is
first wrapped as `panic: <detail>` and then written the same way. -/
def serveWrap : HandlerStep HandlerOut → ServerReply
  | .done o => .ok o
  | .panicAPI s m => .err s m
  | .panicErr d => .err 500 ["internal error: " ++ d]
  | .panicVal d => .err 500 ["internal error: panic: " ++ d]

/-- The status the client observes in a reply (a streamed reply carries
its own status; `WriteJSON` writes 200). -/
def replyStatus : ServerReply → Nat
  | .ok (.json _) => 200
  | .ok (.stream r) => r.status
  | .ok (.serveAsset _) => 200
  | .err s _ => s

/-- Modelled from the spec: `CheckAPIKey` aborts with 401 when no valid
API key resolves to a user, and otherwise attaches the current user. -/
def CheckAPIKey : Option User → HandlerStep User
  | none => .panicAPI 401 ["invalid API key"]
  | some u => .done u

/-- Modelled from the spec: the request-context lookup `r.FindUpload`
aborts with 404 ("not found") when the store has no match, so handlers
may assume a non-null result. -/
def FindUploadOr404 (st : Store) (id : Int) : HandlerStep Upload :=
  match st.FindUpload id with
  | none => .panicAPI 404 ["not found"]
  | some u => .done u

/-- Modelled from the spec: `r.FindBuild`, aborting with 404 when
absent. -/
def FindBuildOr404 (st : Store) (id : Int) : HandlerStep Build :=
  match st.FindBuild id with
  | none => .panicAPI 404 ["not found"]
  | some b => .done b

/-- Modelled from the spec: `AssertAuthorization` aborts with 403 when
the caller-evaluated predicate is false. -/
def AssertAuthorization (ok : Bool) : HandlerStep Unit :=
  if ok then .done () else .panicAPI 403 ["forbidden"]

/-- Modelled from the spec: evaluating the view predicate through a
possibly-nil `*Game`.  The predicate is a pure function of the entity,
so the method call dereferences its receiver; on the nil pointer that
dereference is a Go runtime fault. -/
def CanBeViewedByOpt : Option Game → User → HandlerStep Bool
  | none, _ => .panicErr "runtime error: invalid memory address or nil pointer dereference"
  | some g, u => .done (g.CanBeViewedBy u)

/-! ## The `/@cdn` handler (asset streaming with byte ranges) -/

/-- The fields the `/@cdn` handler computes before assembling headers:
status, the optional `content-range` header value, the content length,
and the body bytes. -/
structure CDNResponse where
  status : Nat
  contentRange : Option String
  contentLength : Int
  body : List Nat

/-- The tail of the `/@cdn` range branch once `start` and `end` are
known: slice `data[start : end+1]` (a runtime fault when out of
bounds), content length `end + 1 - start`, status 206, and the
`content-range` value `bytes <start>-<end>/<size>`. -/
def cdnAfterParse (f : CDNFile) (start e : Int) : Except String CDNResponse :=
  match goSlice f.Contents start (e + 1) with
  | .error d => .error d
  | .ok data =>
    .ok { status := 206,
          contentRange := some ("bytes " ++ toString start ++ "-" ++ toString e
            ++ "/" ++ toString f.Size),
          contentLength := e + 1 - start,
          body := data }

/-- The `/@cdn` handler's body computation: no Range header means
status 200 with the full contents; otherwise split the header on `=`
(indexing token 1), split that on `-` (indexing tokens 0 and 1), parse
each token with unparseable tokens defaulting to `0` and `size - 1`
respectively, and take the inclusive subrange. -/
def cdnCore (f : CDNFile) (rangeHeader : String) : Except String CDNResponse :=
  if rangeHeader = "" then
    .ok { status := 200, contentRange := none, contentLength := f.Size,
          body := f.Contents }
  else
    match goIndex (goSplit rangeHeader '=') 1 with
    | .error d => .error d
    | .ok rt1 =>
      match goIndex (goSplit rt1 '-') 0 with
      | .error d => .error d
      | .ok bt0 =>
        match goIndex (goSplit rt1 '-') 1 with
        | .error d => .error d
        | .ok bt1 =>
          cdnAfterParse f ((parseInt64 bt0).getD 0)
            ((parseInt64 bt1).getD (f.Size - 1))

/-- The header block the `/@cdn` handler sets: the `content-range`
header (range branch only) followed by `content-length`,
`accept-range`, `content-type`, `content-disposition` and
`connection`, with the values the Go code formats. -/
def cdnHeaders (f : CDNFile) (contentRange : Option String) (contentLength : Int) :
    List (String × String) :=
  (match contentRange with
   | none => []
   | some cr => [("content-range", cr)]) ++
  [("content-length", toString contentLength),
   ("accept-range", "bytes"),
   ("content-type", "application/octet-stream"),
   ("content-disposition", "attachment; filename=" ++ goQuote f.Filename),
   ("connection", "close")]

/-- Assembling the streamed response from the computed fields. -/
def streamOf (f : CDNFile) (resp : CDNResponse) : HTTPResponse :=
  { status := resp.status,
    headers := cdnHeaders f resp.contentRange resp.contentLength,
    body := resp.body }

/-- The `/@cdn` prefix route handler: trim the mount prefix, look the
path up in the store's CDN file map (`Throw(404, "not found")` when
absent), then run the streaming computation; a runtime fault inside it
propagates as an error panic. -/
def cdnHandler (st : Store) (urlPath rangeHeader : String) : HandlerStep HandlerOut :=
  match st.CDNFiles.lookup (goTrimCDN urlPath) with
  | none => .panicAPI 404 ["not found"]
  | some f =>
    match cdnCore f rangeHeader with
    | .error d => .panicErr d
    | .ok resp => .done (.stream (streamOf f resp))

/-- The start/end pair the `/@cdn` handler's parsing yields for a
range header, when the header has the `bytes=<start>-<end>` shape
(an `=` is present, and the segment after the first `=` contains a
`-`); `none` when the handler's indexing would fault instead. -/
def rangeStartEnd (size : Int) (hdr : String) : Option (Int × Int) :=
  match (goSplit hdr '=')[1]? with
  | none => none
  | some seg =>
    match goSplit seg '-' with
    | t0 :: t1 :: _ => some ((parseInt64 t0).getD 0, (parseInt64 t1).getD (size - 1))
    | _ => none

/-! ## The other route handlers the claims exercise -/

/-- The `/games/\x7bid\x7d/uploads` GET handler: check the API key,
look the game up through the plain store lookup (`r.store.FindGame`,
which does not abort), evaluate the view predicate on the result,
assert authorization, and write the formatted uploads list. -/
def gamesUploadsHandler (st : Store) (apiUser : Option User) (gameID : Int) :
    HandlerStep HandlerOut :=
  HandlerStep.bind (CheckAPIKey apiUser) fun user =>
  HandlerStep.bind (CanBeViewedByOpt (st.FindGame gameID) user) fun allowed =>
  HandlerStep.bind (AssertAuthorization allowed) fun _ =>
  HandlerStep.done (.json (.vObj
    [("uploads", marshalUploadsSlice (FormatUploads (st.ListUploadsByGame gameID)))]))

/-- The `/uploads/\x7bid\x7d/download` GET handler: check the API key,
look the upload up with the aborting helper, assert download
authorization, then switch on the storage kind: `hosted` serves the
upload's own asset, `build` serves the (archive, default) file of the
build referenced by `Head` (404 when that pair is absent), anything
else raises `Throw(500, "unsupported storage")`. -/
def uploadsDownloadHandler (st : Store) (apiUser : Option User) (uploadID : Int) :
    HandlerStep HandlerOut :=
  HandlerStep.bind (CheckAPIKey apiUser) fun user =>
  HandlerStep.bind (FindUploadOr404 st uploadID) fun upload =>
  HandlerStep.bind (AssertAuthorization (upload.CanBeDownloadedBy user)) fun _ =>
  if upload.Storage = "hosted" then
    HandlerStep.done (.serveAsset (.uploadAsset upload))
  else if upload.Storage = "build" then
    HandlerStep.bind (FindBuildOr404 st upload.Head) fun build =>
    match build.GetFile "archive" "default" with
    | none => .panicAPI 404 ["no archive for build"]
    | some archive => HandlerStep.done (.serveAsset (.buildFileAsset archive))
  else
    .panicAPI 500 ["unsupported storage"]

/-- The `/builds/\x7bid\x7d/download/\x7btype\x7d/\x7bsubtype\x7d` GET
handler: check the API key, look up the build and its owning upload
with the aborting helpers, assert download authorization, then look
the (type, subtype) file up on the build, aborting with 404 when the
pair is absent. -/
def buildsDownloadHandler (st : Store) (apiUser : Option User) (buildID : Int)
    (typ subtype : String) : HandlerStep HandlerOut :=
  HandlerStep.bind (CheckAPIKey apiUser) fun user =>
  HandlerStep.bind (FindBuildOr404 st buildID) fun build =>
  HandlerStep.bind (FindUploadOr404 st build.UploadID) fun upload =>
  HandlerStep.bind (AssertAuthorization (upload.CanBeDownloadedBy user)) fun _ =>
  match build.GetFile typ subtype with
  | none => .panicAPI 404 ["no " ++ typ ++ "/" ++ subtype ++ " build file"]
  | some bf => HandlerStep.done (.serveAsset (.buildFileAsset bf))

/-! ## Derived forms of the `/@cdn` pipeline and concrete fixtures -/

/-- The wrapped reply of the `/@cdn` route for a file found in the
store: the streamed response on success, the recovered 500 on a
runtime fault. -/
def cdnReply (f : CDNFile) (hdr : String) : ServerReply :=
  match cdnCore f hdr with
  | .error d => .err 500 ["internal error: " ++ d]
  | .ok resp => .ok (.stream (streamOf f resp))

/-- The wrapped reply of the `/@cdn` route from a parsed (start, end)
pair onward. -/
def cdnFinish (f : CDNFile) (s e : Int) : ServerReply :=
  match cdnAfterParse f s e with
  | .error d => .err 500 ["internal error: " ++ d]
  | .ok resp => .ok (.stream (streamOf f resp))

/-- A sample user for concrete evaluations. -/
def u0 : User := ⟨1, true, false, false, "gamer", "gamer1", false⟩

/-- A five-byte CDN file. -/
def f0 : CDNFile := { Filename := "a.bin", Size := 5, Contents := [10, 20, 30, 40, 50] }

/-- A store holding only the CDN file `f0` under path `/a.bin`. -/
def st0 : Store := { Games := [], Uploads := [], Builds := [], CDNFiles := [("/a.bin", f0)] }

/-- A build with no files at all. -/
def b1 : Build := { ID := 1, UploadID := 2, Files := [] }

/-- A build-storage upload whose head is `b1`. -/
def up2 : Upload :=
  { ID := 2, GameID := 1, Typ := "default", Storage := "build", Size := 0,
    Filename := "x.zip", URL := "", PlatformLinux := false,
    PlatformWindows := false, PlatformMac := false, Head := 1 }

/-- An upload with an unsupported storage kind. -/
def up7 : Upload := { up2 with ID := 7, Storage := "weird" }

/-- A store holding the uploads `up2`, `up7` and the build `b1`. -/
def st1 : Store :=
  { Games := [], Uploads := [(2, up2), (7, up7)], Builds := [(1, b1)], CDNFiles := [] }

/-! ## Helper lemmas -/

lemma serveWrap_cdnHandler_eq (st : Store) (p hdr : String) (f : CDNFile)
    (hlk : st.CDNFiles.lookup (goTrimCDN p) = some f) :
    serveWrap (cdnHandler st p hdr) = cdnReply f hdr := by
  simp only [cdnHandler, hlk, cdnReply]
  cases h : cdnCore f hdr <;> rfl

lemma cdnCore_tokens (f : CDNFile) (hdr seg t0 t1 : String) (rest : List String)
    (hne : hdr ≠ "") (hseg : (goSplit hdr '=')[1]? = some seg)
    (htok : goSplit seg '-' = t0 :: t1 :: rest) :
    cdnCore f hdr =
      cdnAfterParse f ((parseInt64 t0).getD 0) ((parseInt64 t1).getD (f.Size - 1)) := by
  rcases hxs : goSplit hdr '=' with _ | ⟨a, _ | ⟨b, tl⟩⟩ <;> rw [hxs] at hseg
  · cases hseg
  · cases hseg
  · have hb : b = seg := by simpa using hseg
    subst hb
    simp [cdnCore, goIndex, hxs, htok, hne]

lemma cdnCore_parse (f : CDNFile) (hdr : String) (s e : Int)
    (hne : hdr ≠ "") (hp : rangeStartEnd f.Size hdr = some (s, e)) :
    cdnCore f hdr = cdnAfterParse f s e := by
  cases hseg : (goSplit hdr '=')[1]? with
  | none => simp [rangeStartEnd, hseg] at hp
  | some seg =>
    cases htok : goSplit seg '-' with
    | nil => simp [rangeStartEnd, hseg, htok] at hp
    | cons t0 tl =>
      cases tl with
      | nil => simp [rangeStartEnd, hseg, htok] at hp
      | cons t1 rest =>
        simp only [rangeStartEnd, hseg, htok] at hp
        have hinj := Option.some.inj hp
        have h1 : (parseInt64 t0).getD 0 = s := congrArg Prod.fst hinj
        have h2 : (parseInt64 t1).getD (f.Size - 1) = e := congrArg Prod.snd hinj
        rw [cdnCore_tokens f hdr seg t0 t1 rest hne hseg htok, h1, h2]

lemma afterParse_ok (f : CDNFile) (s e : Int)
    (h0 : 0 ≤ s) (h1 : s ≤ e + 1) (h2 : e + 1 ≤ (f.Contents.length : Int)) :
    cdnAfterParse f s e =
      .ok { status := 206,
            contentRange := some ("bytes " ++ toString s ++ "-" ++ toString e
              ++ "/" ++ toString f.Size),
            contentLength := e + 1 - s,
            body := (f.Contents.drop s.toNat).take (e + 1 - s).toNat } := by
  unfold cdnAfterParse goSlice
  rw [if_pos ⟨h0, h1, h2⟩]

lemma afterParse_err (f : CDNFile) (s e : Int)
    (h : ¬ (0 ≤ s ∧ s ≤ e + 1 ∧ e + 1 ≤ (f.Contents.length : Int))) :
    cdnAfterParse f s e = .error "runtime error: slice bounds out of range" := by
  unfold cdnAfterParse goSlice
  rw [if_neg h]

lemma slice_length_int (xs : List Nat) (s e : Int)
    (h0 : 0 ≤ s) (h1 : s ≤ e + 1) (h2 : e + 1 ≤ (xs.length : Int)) :
    (((xs.drop s.toNat).take (e + 1 - s).toNat).length : Int) = e + 1 - s := by
  simp only [List.length_take, List.length_drop]
  omega

lemma formatUploads_foldl (us : List Upload) (acc : List Any) :
    us.foldl (fun res u => goAppendAny res (FormatUpload u)) (some acc) =
      some (acc ++ us.map FormatUpload) := by
  induction us generalizing acc with
  | nil => simp
  | cons u t ih =>
    simp only [List.foldl_cons]
    rw [show goAppendAny (some acc) (FormatUpload u) = some (acc ++ [FormatUpload u]) from rfl,
      ih]
    simp

lemma formatUploads_nil : FormatUploads [] = none := rfl

lemma formatUploads_cons (u : Upload) (t : List Upload) :
    FormatUploads (u :: t) = some ((u :: t).map FormatUpload) := by
  unfold FormatUploads
  simp only [List.foldl_cons]
  rw [show goAppendAny none (FormatUpload u) = some ([FormatUpload u]) from rfl,
    formatUploads_foldl]
  simp

/-! ## Claim theorems -/

/-- C1, counterexample: a handler failing with the unstructured runtime
fault detail `secret fault detail` is answered with status 500, but the
single message of the JSON error body is `internal error: secret fault
detail` — the original fault detail occurs verbatim in the body sent to
the client, contradicting the claim that it is not included. -/
theorem C1_counterexample :
    serveWrap (HandlerStep.panicErr "secret fault detail") =
      ServerReply.err 500 ["internal error: secret fault detail"] ∧
    strContainsSub "internal error: secret fault detail" "secret fault detail" = true :=
  ⟨rfl, rfl⟩

/-- C1, amended: for every request whose handler fails with an
unstructured runtime fault, the dispatch wrapper writes a JSON error
response with status 500, but the message embeds the fault's formatted
detail — `internal error: <detail>` for an error panic, and
`internal error: panic: <detail>` for a non-error panic value — so the
detail is exposed to the client rather than replaced by a generic
message. -/
theorem C1_unstructured_fault_500_with_detail (d : String) :
    serveWrap (HandlerStep.panicErr d) =
      ServerReply.err 500 ["internal error: " ++ d] ∧
    serveWrap (HandlerStep.panicVal d) =
      ServerReply.err 500 ["internal error: panic: " ++ d] :=
  ⟨rfl, rfl⟩

/-- C2, code evaluated at the failing input: an authenticated GET on
`/games/5/uploads` against a store with no game 5 does not answer 404 —
the handler's plain store lookup returns nil without aborting, the view
predicate dereferences the nil game, and the dispatch wrapper surfaces
the runtime fault as a 500 internal error. -/
theorem C2_absent_game_yields_500 :
    serveWrap (gamesUploadsHandler st0 (some u0) 5) =
      ServerReply.err 500
        ["internal error: runtime error: invalid memory address or nil pointer dereference"] ∧
    replyStatus (serveWrap (gamesUploadsHandler st0 (some u0) 5)) = 500 :=
  ⟨rfl, rfl⟩

/-- C4, counterexample: on the stored five-byte file, the non-empty
Range header `bytes=2` has a missing end token, yet the code does not
treat the end as size - 1: indexing the missing token is a runtime
fault surfaced as a 500 error, while the defaulting claimed would have
produced the 206 reply that the explicit header `bytes=2-` produces. -/
theorem C4_counterexample :
    serveWrap (cdnHandler st0 "/@cdn/a.bin" "bytes=2") =
      ServerReply.err 500 ["internal error: runtime error: index out of range"] ∧
    serveWrap (cdnHandler st0 "/@cdn/a.bin" "bytes=2-") =
      ServerReply.ok (HandlerOut.stream
        { status := 206, headers := cdnHeaders f0 (some "bytes 2-4/5") 3,
          body := [30, 40, 50] }) :=
  ⟨rfl, rfl⟩

/-- C4, amended: for a request resolving to a stored CDNFile whose
non-empty Range header has the `bytes=<start>-<end>` shape — an `=` is
present and the segment after the first `=` contains a `-` — a missing
or unparseable start token is treated as 0 and a missing or unparseable
end token as size - 1 before the subrange is computed; a non-empty
header lacking either separator instead faults on token indexing and is
surfaced as a 500 error. -/
theorem C4_token_defaults (st : Store) (p hdr : String) (f : CDNFile)
    (seg t0 t1 : String) (rest : List String)
    (hlk : st.CDNFiles.lookup (goTrimCDN p) = some f)
    (hne : hdr ≠ "")
    (hseg : (goSplit hdr '=')[1]? = some seg)
    (htok : goSplit seg '-' = t0 :: t1 :: rest) :
    serveWrap (cdnHandler st p hdr) =
      cdnFinish f ((parseInt64 t0).getD 0) ((parseInt64 t1).getD (f.Size - 1)) := by
  rw [serveWrap_cdnHandler_eq st p hdr f hlk]
  unfold cdnReply cdnFinish
  rw [cdnCore_tokens f hdr seg t0 t1 rest hne hseg htok]

/-- C4, witness: on the stored five-byte file, the Range header
`bytes=x-y` (both tokens unparseable) is served exactly as the
defaulted range start 0, end size - 1. -/
theorem C4_witness :
    serveWrap (cdnHandler st0 "/@cdn/a.bin" "bytes=x-y") =
      cdnFinish f0 ((parseInt64 "x").getD 0) ((parseInt64 "y").getD (f0.Size - 1)) :=
  C4_token_defaults st0 "/@cdn/a.bin" "bytes=x-y" f0 "x-y" "x" "y" []
    rfl (by decide) rfl rfl

/-- C5, counterexample: on the stored five-byte file, the parsed Range
`bytes=1-0` violates start ≤ end, yet the server does not answer 500:
the Go slice expression `data[1:1]` is legal, so the code serves a 206
with an empty body. -/
theorem C5_counterexample :
    serveWrap (cdnHandler st0 "/@cdn/a.bin" "bytes=1-0") =
      ServerReply.ok (HandlerOut.stream
        { status := 206, headers := cdnHeaders f0 (some "bytes 1-0/5") 0, body := [] }) ∧
    replyStatus (serveWrap (cdnHandler st0 "/@cdn/a.bin" "bytes=1-0")) = 206 ∧
    ¬ replyStatus (serveWrap (cdnHandler st0 "/@cdn/a.bin" "bytes=1-0")) = 500 :=
  ⟨rfl, rfl, by decide⟩

/-- C5, amended: for a request resolving to a stored CDNFile whose
parsed Range start/end fall outside `start ≤ end < size`, the server
responds 500 (the recovered slice-bounds fault) whenever
`start ≤ end + 1 ≤ size` fails; in the one remaining violating case,
`start = end + 1 ≤ size`, the slice is legal and the code instead
serves a 206 with an empty body and content length 0 — the range is
never clamped. -/
theorem C5_out_of_bounds_500 (st : Store) (p hdr : String) (f : CDNFile) (s e : Int)
    (hlk : st.CDNFiles.lookup (goTrimCDN p) = some f)
    (hne : hdr ≠ "")
    (hp : rangeStartEnd f.Size hdr = some (s, e))
    (h0 : 0 ≤ s)
    (hlen : f.Size = (f.Contents.length : Int)) :
    (¬ (s ≤ e + 1 ∧ e + 1 ≤ f.Size) →
      serveWrap (cdnHandler st p hdr) =
        ServerReply.err 500 ["internal error: runtime error: slice bounds out of range"]) ∧
    (s = e + 1 → e + 1 ≤ f.Size →
      serveWrap (cdnHandler st p hdr) =
        ServerReply.ok (HandlerOut.stream
          { status := 206,
            headers := cdnHeaders f
              (some ("bytes " ++ toString s ++ "-" ++ toString e ++ "/" ++ toString f.Size)) 0,
            body := [] })) := by
  constructor
  · intro h
    rw [serveWrap_cdnHandler_eq st p hdr f hlk]
    unfold cdnReply
    rw [cdnCore_parse f hdr s e hne hp]
    rw [afterParse_err f s e (by rw [← hlen]; tauto)]
    rfl
  · intro hs hle
    rw [serveWrap_cdnHandler_eq st p hdr f hlk]
    unfold cdnReply
    rw [cdnCore_parse f hdr s e hne hp]
    rw [afterParse_ok f s e h0 (by omega) (by rw [← hlen]; exact hle)]
    have hz : e + 1 - s = 0 := by omega
    simp [streamOf, hz]

/-- C5, witness: on the stored five-byte file, the parsed range of
`bytes=3-9` is out of bounds on the high side and is answered 500. -/
theorem C5_witness :
    serveWrap (cdnHandler st0 "/@cdn/a.bin" "bytes=3-9") =
      ServerReply.err 500 ["internal error: runtime error: slice bounds out of range"] :=
  (C5_out_of_bounds_500 st0 "/@cdn/a.bin" "bytes=3-9" f0 3 9
    rfl (by decide) rfl (by decide) rfl).1 (by decide)

/-- C6, code evaluated at the failing input: successful asset replies
(with and without a Range header) do carry `content-type:
application/octet-stream`, the attachment `content-disposition`, and
`connection: close`, but the ranges-advertising header the code sets is
named `accept-range`, not `accept-ranges`: no `accept-ranges: bytes`
header is present on the reply, contradicting the claim. -/
theorem C6_accept_ranges_header_missing :
    serveWrap (cdnHandler st0 "/@cdn/a.bin" "") =
      ServerReply.ok (HandlerOut.stream
        { status := 200, headers := cdnHeaders f0 none 5,
          body := [10, 20, 30, 40, 50] }) ∧
    (cdnHeaders f0 none 5).lookup "accept-ranges" = none ∧
    (cdnHeaders f0 none 5).lookup "accept-range" = some "bytes" ∧
    (cdnHeaders f0 none 5).lookup "content-type" = some "application/octet-stream" ∧
    (cdnHeaders f0 none 5).lookup "content-disposition" =
      some ("attachment; filename=" ++ goQuote "a.bin") ∧
    (cdnHeaders f0 none 5).lookup "connection" = some "close" ∧
    (cdnHeaders f0 (some "bytes 1-3/5") 3).lookup "accept-ranges" = none :=
  ⟨rfl, rfl, rfl, rfl, rfl, rfl, rfl⟩

/-- C7: for every Upload, the `platforms` object of `FormatUpload`
holds key `linux` with value `"all"` exactly when `PlatformLinux` is
true (and similarly `windows` / `osx` for the other two flags), and
holds no key besides those three. -/
theorem C7_platforms_object (u : Upload) :
    (FormatUpload u).lookup "platforms" = some (Value.vObj (uploadPlatforms u)) ∧
    ((uploadPlatforms u).lookup "linux" =
      if u.PlatformLinux then some (Value.vStr "all") else none) ∧
    ((uploadPlatforms u).lookup "windows" =
      if u.PlatformWindows then some (Value.vStr "all") else none) ∧
    ((uploadPlatforms u).lookup "osx" =
      if u.PlatformMac then some (Value.vStr "all") else none) ∧
    (uploadPlatforms u).all
      (fun kv => kv.1 == "linux" || kv.1 == "windows" || kv.1 == "osx") = true := by
  refine ⟨rfl, ?_, ?_, ?_, ?_⟩ <;>
    cases hL : u.PlatformLinux <;> cases hW : u.PlatformWindows <;>
      cases hM : u.PlatformMac <;> simp [uploadPlatforms, hL, hW, hM, List.lookup]

/-- C9: `FormatUploads` maps each upload through `FormatUpload`
preserving length and order, and on the empty list it returns the nil
slice, which the JSON layer serializes as `null` rather than `[]`. -/
theorem C9_format_uploads_shape (us : List Upload) :
    (((FormatUploads us).getD []).length = us.length) ∧
    (∀ i : Nat, ((FormatUploads us).getD [])[i]? = (us[i]?).map FormatUpload) ∧
    FormatUploads [] = none ∧
    marshalUploadsSlice (FormatUploads []) = Value.vNull := by
  refine ⟨?_, ?_, rfl, rfl⟩
  · cases us with
    | nil => simp [formatUploads_nil]
    | cons u t => simp [formatUploads_cons]
  · intro i
    cases us with
    | nil => simp [formatUploads_nil]
    | cons u t =>
      simp only [formatUploads_cons, Option.getD_some]
      rw [List.getElem?_map]

/-- C3: a GET on `/@cdn/<path>` resolving to a stored CDNFile, whose
Range header parses to start/end with `0 ≤ start ≤ end < size`, is
answered 206 with a `content-range` of `bytes <start>-<end>/<size>`, a
`content-length` of `end - start + 1`, and a body equal to the
inclusive byte subrange `[start, end]` of the file's contents. -/
theorem C3_satisfiable_range_206 (st : Store) (p hdr : String) (f : CDNFile) (s e : Int)
    (hlk : st.CDNFiles.lookup (goTrimCDN p) = some f)
    (hne : hdr ≠ "")
    (hp : rangeStartEnd f.Size hdr = some (s, e))
    (h0 : 0 ≤ s) (hse : s ≤ e) (heS : e < f.Size)
    (hlen : f.Size = (f.Contents.length : Int)) :
    ∃ r : HTTPResponse,
      serveWrap (cdnHandler st p hdr) = ServerReply.ok (HandlerOut.stream r) ∧
      r.status = 206 ∧
      r.headers.lookup "content-range" =
        some ("bytes " ++ toString s ++ "-" ++ toString e ++ "/" ++ toString f.Size) ∧
      r.headers.lookup "content-length" = some (toString (e - s + 1)) ∧
      r.body = (f.Contents.drop s.toNat).take (e - s + 1).toNat ∧
      (r.body.length : Int) = e - s + 1 := by
  have harith : e + 1 - s = e - s + 1 := by omega
  have h1 : s ≤ e + 1 := by omega
  have h2 : e + 1 ≤ (f.Contents.length : Int) := by omega
  refine ⟨streamOf f
    { status := 206,
      contentRange := some ("bytes " ++ toString s ++ "-" ++ toString e
        ++ "/" ++ toString f.Size),
      contentLength := e + 1 - s,
      body := (f.Contents.drop s.toNat).take (e + 1 - s).toNat },
    ?_, rfl, rfl, ?_, ?_, ?_⟩
  · rw [serveWrap_cdnHandler_eq st p hdr f hlk]
    unfold cdnReply
    rw [cdnCore_parse f hdr s e hne hp, afterParse_ok f s e h0 h1 h2]
  · simp only [streamOf]
    rw [harith]
    rfl
  · simp only [streamOf]
    rw [harith]
  · simp only [streamOf]
    rw [← harith]
    exact slice_length_int f.Contents s e h0 h1 h2

/-- C3, witness: the Range header `bytes=1-3` on the stored five-byte
file is served as the 206 partial reply. -/
theorem C3_witness :
    ∃ r : HTTPResponse,
      serveWrap (cdnHandler st0 "/@cdn/a.bin" "bytes=1-3") =
        ServerReply.ok (HandlerOut.stream r) ∧
      r.status = 206 ∧
      r.headers.lookup "content-range" =
        some ("bytes " ++ toString (1 : Int) ++ "-" ++ toString (3 : Int)
          ++ "/" ++ toString f0.Size) ∧
      r.headers.lookup "content-length" = some (toString ((3 : Int) - 1 + 1)) ∧
      r.body = (f0.Contents.drop (1 : Int).toNat).take ((3 : Int) - 1 + 1).toNat ∧
      (r.body.length : Int) = (3 : Int) - 1 + 1 :=
  C3_satisfiable_range_206 st0 "/@cdn/a.bin" "bytes=1-3" f0 1 3
    rfl (by decide) rfl (by decide) (by decide) (by decide) rfl

/-- C8: an authenticated, authorized download request reaching a Build
that lacks the requested (type, subtype) file is answered 404 — both on
`/builds/\x7bid\x7d/download/\x7btype\x7d/\x7bsubtype\x7d` with an
absent pair and on `/uploads/\x7bid\x7d/download` for a build-storage
Upload whose Build lacks the (archive, default) file — never 500 and
never a crash. -/
theorem C8_missing_build_file_404 (st : Store) (u : User) :
    (∀ (bid : Int) (typ subtype : String) (b : Build) (up : Upload),
      st.FindBuild bid = some b →
      st.FindUpload b.UploadID = some up →
      up.CanBeDownloadedBy u = true →
      b.GetFile typ subtype = none →
      serveWrap (buildsDownloadHandler st (some u) bid typ subtype) =
        ServerReply.err 404 ["no " ++ typ ++ "/" ++ subtype ++ " build file"]) ∧
    (∀ (uid : Int) (up : Upload) (b : Build),
      st.FindUpload uid = some up →
      up.Storage = "build" →
      up.CanBeDownloadedBy u = true →
      st.FindBuild up.Head = some b →
      b.GetFile "archive" "default" = none →
      serveWrap (uploadsDownloadHandler st (some u) uid) =
        ServerReply.err 404 ["no archive for build"]) := by
  constructor
  · intro bid typ subtype b up hb hup ha hf
    simp [buildsDownloadHandler, CheckAPIKey, FindBuildOr404, FindUploadOr404,
      AssertAuthorization, HandlerStep.bind, hb, hup, ha, hf, serveWrap]
  · intro uid up b hup hstor ha hb hf
    simp [uploadsDownloadHandler, CheckAPIKey, FindBuildOr404, FindUploadOr404,
      AssertAuthorization, HandlerStep.bind, hup, hstor, ha, hb, hf, serveWrap]

/-- C8, witness: on a store whose build 1 has no files and is owned by
the build-storage upload 2, both download routes answer 404. -/
theorem C8_witness :
    serveWrap (buildsDownloadHandler st1 (some u0) 1 "archive" "x") =
      ServerReply.err 404 ["no archive/x build file"] ∧
    serveWrap (uploadsDownloadHandler st1 (some u0) 2) =
      ServerReply.err 404 ["no archive for build"] :=
  ⟨(C8_missing_build_file_404 st1 u0).1 1 "archive" "x" b1 up2 rfl rfl rfl rfl,
   (C8_missing_build_file_404 st1 u0).2 2 up2 b1 rfl rfl rfl rfl rfl⟩

/-- C10: on `/uploads/\x7bid\x7d/download` with an authenticated,
authorized request for a build-storage Upload, whatever asset is served
is exactly the (archive, default) file of the Build referenced by the
Upload's Head — the route accepts no (type, subtype) selection — and a
storage kind other than `hosted` and `build` is answered with the
status-500 abort `unsupported storage`. -/
theorem C10_build_storage_fixed_pair (st : Store) (u : User) (uid : Int) (up : Upload)
    (hup : st.FindUpload uid = some up)
    (ha : up.CanBeDownloadedBy u = true) :
    (up.Storage = "build" →
      ∀ a : ServedAsset,
        serveWrap (uploadsDownloadHandler st (some u) uid) =
          ServerReply.ok (HandlerOut.serveAsset a) →
        ∃ (b : Build) (bf : BuildFile),
          st.FindBuild up.Head = some b ∧
          b.GetFile "archive" "default" = some bf ∧
          a = ServedAsset.buildFileAsset bf) ∧
    (up.Storage ≠ "hosted" → up.Storage ≠ "build" →
      serveWrap (uploadsDownloadHandler st (some u) uid) =
        ServerReply.err 500 ["unsupported storage"]) := by
  constructor
  · intro hstor a heq
    cases hb : st.FindBuild up.Head with
    | none =>
      exfalso
      simp [uploadsDownloadHandler, CheckAPIKey, FindUploadOr404, FindBuildOr404,
        AssertAuthorization, HandlerStep.bind, hup, ha, hstor, hb, serveWrap] at heq
    | some b =>
      cases hg : b.GetFile "archive" "default" with
      | none =>
        exfalso
        simp [uploadsDownloadHandler, CheckAPIKey, FindUploadOr404, FindBuildOr404,
          AssertAuthorization, HandlerStep.bind, hup, ha, hstor, hb, hg, serveWrap] at heq
      | some bf =>
        refine ⟨b, bf, rfl, hg, ?_⟩
        simp [uploadsDownloadHandler, CheckAPIKey, FindUploadOr404, FindBuildOr404,
          AssertAuthorization, HandlerStep.bind, hup, ha, hstor, hb, hg, serveWrap] at heq
        exact heq.symm
  · intro h1 h2
    simp [uploadsDownloadHandler, CheckAPIKey, FindUploadOr404, AssertAuthorization,
      HandlerStep.bind, hup, ha, h1, h2, serveWrap]

/-- C10, witness: the upload with storage kind `weird` is answered with
the status-500 `unsupported storage` abort. -/
theorem C10_witness :
    serveWrap (uploadsDownloadHandler st1 (some u0) 7) =
      ServerReply.err 500 ["unsupported storage"] :=
  (C10_build_storage_fixed_pair st1 u0 7 up7 rfl rfl).2 (by decide) (by decide)

end Mitch
